import Mathlib

/-!
# String Analyzer — verification of its core semantics

A shallow embedding of `src/main.py` of the string-analyzer service:
the analysis helpers (`sha256_hash`, `is_palindrome_value`,
`character_frequency_map`, `analyze_string`), the filter matcher
(`match_filters`), the natural-language query interpreter
(`parse_nl_query`) and the store-facing operations (`create_string`,
`filter_by_nl`).  Machine integers are modelled as `Nat` with explicit
`% 2^32` where 32-bit overflow matters (inside SHA-256); Python dicts
with a fixed key set become structures of `Option` fields; the Python
dict used as a character-frequency map becomes an insertion-ordered
association list.  Character classes (`\s`, `\w`, `\d`, case mapping)
are modelled on the character ranges the service actually handles.
-/

/-! ## Python-style character helpers -/

/-- Characters matched by Python's `\s` / `str.isspace` / `str.strip`
(ASCII whitespace, the C1 separators, and the Unicode space separators). -/
def isPySpace (c : Char) : Bool :=
  let n := c.toNat
  (9 ≤ n && n ≤ 13) || n == 32 || (28 ≤ n && n ≤ 31) || n == 0x85 || n == 0xA0 ||
  n == 0x1680 || (0x2000 ≤ n && n ≤ 0x200A) || n == 0x2028 || n == 0x2029 ||
  n == 0x202F || n == 0x205F || n == 0x3000

/-- Python's `str.strip()`: drop leading and trailing whitespace. -/
def pyStrip (l : List Char) : List Char :=
  ((l.dropWhile isPySpace).reverse.dropWhile isPySpace).reverse

/-- Per-character lower-casing, `str.lower()` on the letter range the
service's queries and values use. -/
def pyLower (c : Char) : Char := c.toLower

/-- Per-character upper-casing, `str.upper()` on the letter range the
service uses. -/
def pyUpper (c : Char) : Char := c.toUpper

/-- `'a' ≤ c ≤ 'z'`: the characters the interpreter's `[a-z]` class accepts. -/
def isAsciiLower (c : Char) : Bool := 'a' ≤ c && c ≤ 'z'

/-! ## SHA-256 (`hashlib.sha256(...).hexdigest()`), FIPS 180-4 -/

/-- Truncation to a 32-bit machine word. -/
def w32 (n : Nat) : Nat := n % 4294967296

/-- 32-bit right rotation. -/
def rotr32 (x n : Nat) : Nat := w32 ((x >>> n) ||| (x <<< (32 - n)))

/-- SHA-256 `Ch` function. -/
def shaCh (e f g : Nat) : Nat := (e &&& f) ^^^ ((e ^^^ 0xFFFFFFFF) &&& g)

/-- SHA-256 `Maj` function. -/
def shaMaj (a b c : Nat) : Nat := (a &&& b) ^^^ (a &&& c) ^^^ (b &&& c)

/-- SHA-256 big sigma 0. -/
def bsig0 (x : Nat) : Nat := rotr32 x 2 ^^^ rotr32 x 13 ^^^ rotr32 x 22

/-- SHA-256 big sigma 1. -/
def bsig1 (x : Nat) : Nat := rotr32 x 6 ^^^ rotr32 x 11 ^^^ rotr32 x 25

/-- SHA-256 small sigma 0. -/
def ssig0 (x : Nat) : Nat := rotr32 x 7 ^^^ rotr32 x 18 ^^^ (x >>> 3)

/-- SHA-256 small sigma 1. -/
def ssig1 (x : Nat) : Nat := rotr32 x 17 ^^^ rotr32 x 19 ^^^ (x >>> 10)

/-- The 64 SHA-256 round constants, in decimal. -/
def sha256K : List Nat :=
  [1116352408, 1899447441, 3049323471, 3921009573, 961987163,
   1508970993, 2453635748, 2870763221, 3624381080, 310598401,
   607225278, 1426881987, 1925078388, 2162078206, 2614888103,
   3248222580, 3835390401, 4022224774, 264347078, 604807628,
   770255983, 1249150122, 1555081692, 1996064986, 2554220882,
   2821834349, 2952996808, 3210313671, 3336571891, 3584528711,
   113926993, 338241895, 666307205, 773529912, 1294757372,
   1396182291, 1695183700, 1986661051, 2177026350, 2456956037,
   2730485921, 2820302411, 3259730800, 3345764771, 3516065817,
   3600352804, 4094571909, 275423344, 430227734, 506948616,
   659060556, 883997877, 958139571, 1322822218, 1537002063,
   1747873779, 1955562222, 2024104815, 2227730452, 2361852424,
   2428436474, 2756734187, 3204031479, 3329325298]

/-- The initial SHA-256 hash state, in decimal. -/
def sha256H0 : List Nat :=
  [1779033703, 3144134277, 1013904242, 2773480762,
   1359893119, 2600822924, 528734635, 1541459225]

/-- Big-endian bytes of an eight-byte length field. -/
def lenBE (n : Nat) : List Nat :=
  (List.range 8).map (fun i => n / 256 ^ (7 - i) % 256)

/-- SHA-256 message padding: append `0x80`, zero bytes up to 56 mod 64,
then the bit length as eight big-endian bytes. -/
def shaPad (msg : List Nat) : List Nat :=
  let L := msg.length
  let k := (119 - L % 64) % 64
  msg ++ 0x80 :: List.replicate k 0 ++ lenBE (8 * L)

/-- Split a byte list into successive 64-byte blocks.  The `fuel`
argument only bounds the recursion structurally; each step consumes at
least one element, so the list's length is always enough fuel. -/
def toBlocksAux : Nat → List Nat → List (List Nat)
  | _, [] => []
  | 0, _ :: _ => []
  | fuel + 1, c :: cs => (c :: cs).take 64 :: toBlocksAux fuel ((c :: cs).drop 64)

/-- Split a byte list into successive 64-byte blocks. -/
def toBlocks (l : List Nat) : List (List Nat) := toBlocksAux l.length l

/-- Pack bytes into big-endian 32-bit words. -/
def bytesToWords : List Nat → List Nat
  | b0 :: b1 :: b2 :: b3 :: rest =>
      (((b0 * 256 + b1) * 256 + b2) * 256 + b3) :: bytesToWords rest
  | _ => []

/-- One step of the message-schedule extension: append the next word. -/
def nextW (w : List Nat) : Nat :=
  let n := w.length
  w32 (w.getD (n - 16) 0 + ssig0 (w.getD (n - 15) 0) +
       w.getD (n - 7) 0 + ssig1 (w.getD (n - 2) 0))

/-- Extend the 16 block words by `k` further schedule words. -/
def extendSchedule (w : List Nat) : Nat → List Nat
  | 0 => w
  | k + 1 => extendSchedule (w ++ [nextW w]) k

/-- The eight working variables of the compression loop. -/
structure Hash8 where
  a : Nat
  b : Nat
  c : Nat
  d : Nat
  e : Nat
  f : Nat
  g : Nat
  h : Nat
deriving DecidableEq

/-- One SHA-256 compression round. -/
def roundStep (w : List Nat) (st : Hash8) (t : Nat) : Hash8 :=
  let t1 := w32 (st.h + bsig1 st.e + shaCh st.e st.f st.g +
                 sha256K.getD t 0 + w.getD t 0)
  let t2 := w32 (bsig0 st.a + shaMaj st.a st.b st.c)
  ⟨w32 (t1 + t2), st.a, st.b, st.c, w32 (st.d + t1), st.e, st.f, st.g⟩

/-- Compress one 64-byte block into the running hash state. -/
def compressBlock (H : List Nat) (block : List Nat) : List Nat :=
  let w := extendSchedule (bytesToWords block) 48
  let init : Hash8 := ⟨H.getD 0 0, H.getD 1 0, H.getD 2 0, H.getD 3 0,
                       H.getD 4 0, H.getD 5 0, H.getD 6 0, H.getD 7 0⟩
  let st := (List.range 64).foldl (roundStep w) init
  List.zipWith (fun x y => w32 (x + y)) H
    [st.a, st.b, st.c, st.d, st.e, st.f, st.g, st.h]

/-- SHA-256 of a byte string, as eight 32-bit words. -/
def sha256Words (msg : List Nat) : List Nat :=
  (toBlocks (shaPad msg)).foldl compressBlock sha256H0

/-- A hex digit, lowercase as `hexdigest` emits. -/
def hexChar (n : Nat) : Char :=
  if n < 10 then Char.ofNat (48 + n) else Char.ofNat (87 + n)

/-- Eight lowercase hex digits of a 32-bit word, most significant first. -/
def toHexWord (n : Nat) : List Char :=
  (List.range 8).map (fun i => hexChar (n / 16 ^ (7 - i) % 16))

/-- UTF-8 encoding of one character (`str.encode("utf-8")`, per scalar). -/
def utf8Char (c : Char) : List Nat :=
  let n := c.toNat
  if n < 0x80 then [n]
  else if n < 0x800 then
    [0xC0 ||| (n >>> 6), 0x80 ||| (n &&& 0x3F)]
  else if n < 0x10000 then
    [0xE0 ||| (n >>> 12), 0x80 ||| ((n >>> 6) &&& 0x3F), 0x80 ||| (n &&& 0x3F)]
  else
    [0xF0 ||| (n >>> 18), 0x80 ||| ((n >>> 12) &&& 0x3F),
     0x80 ||| ((n >>> 6) &&& 0x3F), 0x80 ||| (n &&& 0x3F)]

/-- `value.encode("utf-8")` as a byte list. -/
def utf8Encode (s : String) : List Nat := (s.data.map utf8Char).flatten

/-- `sha256_hash` of `main.py` (lines 36–37): the lowercase hex digest of
SHA-256 over the UTF-8 encoding of `value`. -/
def sha256_hash (value : String) : String :=
  String.mk ((sha256Words (utf8Encode value)).map toHexWord).flatten

/-! ## Analysis helpers of `main.py` -/

/-- `normalize_for_palindrome` (lines 39–41): remove all whitespace
(`re.sub(r"\s+", "", s)`) then lower-case. -/
def normalize_for_palindrome (s : String) : String :=
  String.mk ((s.data.filter (fun c => !isPySpace c)).map pyLower)

/-- `is_palindrome_value` (lines 43–45): the normalized string equals its
reverse (`norm == norm[::-1]`). -/
def is_palindrome_value (s : String) : Bool :=
  let norm := normalize_for_palindrome s
  norm == String.mk norm.data.reverse

/-- One `freq[ch] = freq.get(ch, 0) + 1` update on the insertion-ordered
association list modelling the Python dict. -/
def bumpFreq : List (Char × Nat) → Char → List (Char × Nat)
  | [], c => [(c, 1)]
  | (k, v) :: rest, c =>
      if k = c then (k, v + 1) :: rest else (k, v) :: bumpFreq rest c

/-- `character_frequency_map` (lines 47–51): fold the update over the
characters of the string. -/
def character_frequency_map (s : String) : List (Char × Nat) :=
  s.data.foldl bumpFreq []

/-- Number of whitespace-delimited tokens, `len(v.split())`; the flag
records whether the previous character was inside a token. -/
def countTokens : List Char → Bool → Nat
  | [], _ => 0
  | c :: cs, inTok =>
      if isPySpace c then countTokens cs false
      else (if inTok then 0 else 1) + countTokens cs true

/-- The properties dict computed by `analyze_string` (lines 53–66). -/
structure Props where
  length : Nat
  is_palindrome : Bool
  unique_characters : Nat
  word_count : Nat
  sha256_hash : String
  character_frequency_map : List (Char × Nat)
deriving DecidableEq

/-- `analyze_string` (lines 53–66), on the unmodified `value` (`v = value`). -/
def analyze_string (value : String) : Props :=
  let v := value
  { length := v.length
    is_palindrome := is_palindrome_value v
    unique_characters := v.data.dedup.length
    word_count := if pyStrip v.data = [] then 0 else countTokens v.data false
    sha256_hash := sha256_hash v
    character_frequency_map := character_frequency_map v }

/-! ## Filter matching (`match_filters`, lines 126–153) -/

/-- The sparse filter dict: absent keys are `none`.  Numeric values are
the nonnegative ints the endpoints validate and the interpreter emits;
`contains_character` is the string the caller supplied. -/
structure Filters where
  is_palindrome : Option Bool := none
  min_length : Option Nat := none
  max_length : Option Nat := none
  word_count : Option Nat := none
  contains_character : Option String := none
deriving DecidableEq

/-- The empty filter dict `{}`. -/
def emptyFilters : Filters := {}

/-- Python `ch in freq` for the frequency dict, whose keys are the
one-character strings of the stored characters. -/
def freqHasKey (freq : List (Char × Nat)) (ch : String) : Bool :=
  freq.any (fun kv => String.mk [kv.1] == ch)

/-- `str.lower()` of a key string. -/
def strLower (s : String) : String := String.mk (s.data.map pyLower)

/-- `str.upper()` of a key string. -/
def strUpper (s : String) : String := String.mk (s.data.map pyUpper)

/-- `match_filters` (lines 126–153): each present filter is checked in
turn and any failure returns `False`. -/
def match_filters (props : Props) (filters : Filters) : Bool :=
  if (match filters.is_palindrome with
      | some b => props.is_palindrome != b
      | none => false) then false
  else if (match filters.min_length with
      | some n => decide (props.length < n)
      | none => false) then false
  else if (match filters.max_length with
      | some n => decide (props.length > n)
      | none => false) then false
  else if (match filters.word_count with
      | some n => props.word_count != n
      | none => false) then false
  else match filters.contains_character with
    | some ch =>
        let freq := props.character_frequency_map
        freqHasKey freq ch || freqHasKey freq (strLower ch) ||
          freqHasKey freq (strUpper ch)
    | none => true

/-! ## Store and the create operation (`create_string`, lines 73–103) -/

/-- A row of the `strings` table: `(id, value, properties, created_at)`. -/
structure StoredRow where
  id : String
  value : String
  properties : Props
  created_at : String
deriving DecidableEq

/-- The `strings` table, in insertion order. -/
abbrev Store := List StoredRow

/-- `SELECT ... FROM strings WHERE id = ?`. -/
def findRow (store : Store) (sid : String) : Option StoredRow :=
  List.find? (fun r => r.id == sid) store

/-- Outcome of `create_string`: 201 with the response body, or the
409 conflict. -/
inductive CreateResult where
  | created (body : StoredRow)
  | conflict
deriving DecidableEq

/-- HTTP status of a create outcome. -/
def createStatus : CreateResult → Nat
  | .created _ => 201
  | .conflict => 409

/-- `create_string` (lines 73–103): analyze, derive the id from the
hash, 409 when the id exists (leaving the table untouched), otherwise
insert and return the row.  `now` stands for `datetime.now(...)`. -/
def create_string (store : Store) (value : String) (now : String) :
    Store × CreateResult :=
  let props := analyze_string value
  let sid := props.sha256_hash
  match findRow store sid with
  | some _ => (store, .conflict)
  | none =>
      let row : StoredRow := ⟨sid, value, props, now⟩
      (store ++ [row], .created row)

/-! ## Regex machinery for `parse_nl_query` (lines 208–260)

`re.search` finds the leftmost position where the pattern matches;
alternatives and optional pieces are tried in the regex's backtracking
order.  Each pattern of `parse_nl_query` is modelled by a per-position
matcher plus a leftmost scan. -/

/-- Match a literal at the head of the input, returning the rest. -/
def dropLit : List Char → List Char → Option (List Char)
  | [], l => some l
  | _ :: _, [] => none
  | p :: ps, c :: cs => if p = c then dropLit ps cs else none

/-- Leftmost scan: try the per-position matcher at every suffix. -/
def searchO {α : Type} (p : List Char → Option α) : List Char → Option α
  | [] => p []
  | c :: cs =>
      match p (c :: cs) with
      | some r => some r
      | none => searchO p cs

/-- `pat in q`: plain-substring test (also `re.search` of a literal). -/
def containsSub (pat : List Char) : List Char → Bool
  | [] => (dropLit pat []).isSome
  | c :: cs => (dropLit pat (c :: cs)).isSome || containsSub pat cs

/-- Python `\w` on the character range the service's queries use. -/
def isWordChar (c : Char) : Bool := c.isAlphanum || c == '_'

/-- `\d+` at the head: the maximal digit run, as a number. -/
def matchDigits (l : List Char) : Option Nat :=
  let ds := l.takeWhile Char.isDigit
  if ds.isEmpty then none
  else some (ds.foldl (fun a c => 10 * a + (c.toNat - 48)) 0)

/-- `lit(\d+)` at the head: the literal followed by a digit run. -/
def matchLitNum (lit : List Char) (l : List Char) : Option Nat :=
  match dropLit lit l with
  | some rest => matchDigits rest
  | none => none

/-- `re.search(r"longer than (\d+)", q)`: leftmost match, captured number. -/
def findLongerThan (q : List Char) : Option Nat :=
  searchO (matchLitNum ("longer than ".data)) q

/-- `re.search(r"(?:at least|>=|greater than or equal to) (\d+)", q)`:
at each position the alternatives are tried in order. -/
def findAtLeast (q : List Char) : Option Nat :=
  searchO (fun l =>
    match matchLitNum ("at least ".data) l with
    | some n => some n
    | none =>
        match matchLitNum (">= ".data) l with
        | some n => some n
        | none => matchLitNum ("greater than or equal to ".data) l) q

/-- `re.search(r"shorter than (\d+)", q)`. -/
def findShorterThan (q : List Char) : Option Nat :=
  searchO (matchLitNum ("shorter than ".data)) q

/-- `letter ([a-z])` at the head: the captured lowercase letter. -/
def matchLetterCap (r : List Char) : Option Char :=
  match dropLit ("letter ".data) r with
  | some (c :: _) => if isAsciiLower c then some c else none
  | _ => none

/-- `(?:the )?letter ([a-z])` after the mandatory space: the optional
`the ` is taken greedily, with backtracking fallback. -/
def matchTheLetter (l : List Char) : Option Char :=
  match dropLit (" ".data) l with
  | none => none
  | some rest =>
      match dropLit ("the ".data) rest with
      | some rest' =>
          match matchLetterCap rest' with
          | some c => some c
          | none => matchLetterCap rest
      | none => matchLetterCap rest

/-- `contain(?:ing|s)? (?:the )?letter ([a-z])` at one position: after
`contain`, the optional group tries `ing`, then `s`, then nothing. -/
def matchContainLetter (l : List Char) : Option Char :=
  match dropLit ("contain".data) l with
  | none => none
  | some rest =>
      match (dropLit ("ing".data) rest).bind matchTheLetter with
      | some c => some c
      | none =>
          match (dropLit ("s".data) rest).bind matchTheLetter with
          | some c => some c
          | none => matchTheLetter rest

/-- `re.search(r"contain(?:ing|s)? (?:the )?letter ([a-z])", q)`. -/
def findContainLetter (q : List Char) : Option Char :=
  searchO matchContainLetter q

/-- `containing ([a-z])` at one position. -/
def matchContainingCap (l : List Char) : Option Char :=
  match dropLit ("containing ".data) l with
  | some (c :: _) => if isAsciiLower c then some c else none
  | _ => none

/-- `re.search(r"containing ([a-z])", q)`. -/
def findContaining (q : List Char) : Option Char :=
  searchO matchContainingCap q

/-- `\b` before a position: the preceding character (if any) is a
non-word character; used where the next pattern character is a word
character. -/
def noWordBefore (prev : Option Char) : Bool :=
  match prev with
  | none => true
  | some c => !isWordChar c

/-- `\b` after a word character: the input is exhausted or continues
with a non-word character. -/
def boundaryAfter (l : List Char) : Bool :=
  match l with
  | [] => true
  | c :: _ => !isWordChar c

/-- `word\b` at the head. -/
def matchWordB (l : List Char) : Bool :=
  match dropLit ("word".data) l with
  | some rest => boundaryAfter rest
  | none => false

/-- `[ -]?word\b`: the optional separator is tried greedily. -/
def matchSepWord (l : List Char) : Bool :=
  (match l with
   | c :: cs => (c == ' ' || c == '-') && matchWordB cs
   | [] => false) || matchWordB l

/-- `\b(single|one)[ -]?word\b` at one position. -/
def matchSingleOneWord (prev : Option Char) (l : List Char) : Bool :=
  noWordBefore prev &&
  ((match dropLit ("single".data) l with
    | some rest => matchSepWord rest
    | none => false) ||
   (match dropLit ("one".data) l with
    | some rest => matchSepWord rest
    | none => false))

/-- `\bon[e]?[- ]word\b` at one position: optional `e` greedily, then a
mandatory hyphen or space. -/
def matchOnWord (prev : Option Char) (l : List Char) : Bool :=
  let sepWord := fun (r : List Char) =>
    match r with
    | c :: cs => (c == '-' || c == ' ') && matchWordB cs
    | [] => false
  noWordBefore prev &&
  (match dropLit ("on".data) l with
   | some rest =>
       (match rest with
        | 'e' :: rest' => sepWord rest' || sepWord rest
        | _ => sepWord rest)
   | none => false)

/-- Leftmost scan of a boundary-aware boolean matcher, threading the
previous character. -/
def searchB (p : Option Char → List Char → Bool) :
    Option Char → List Char → Bool
  | prev, [] => p prev []
  | prev, c :: cs => p prev (c :: cs) || searchB p (some c) cs

/-- The rule-2 trigger: either of the two word-count regexes matches. -/
def singleWordQuery (q : List Char) : Bool :=
  searchB matchSingleOneWord none q || searchB matchOnWord none q

/-! ## `parse_nl_query` (lines 211–260) as a chain of rule steps -/

/-- Rule 2: `parsed["word_count"] = 1` when either word-count regex hits. -/
def step2 (q : List Char) (p : Filters) : Filters :=
  if singleWordQuery q then { p with word_count := some 1 } else p

/-- Rule 3: `"palindrom" in q` sets `is_palindrome = True`. -/
def step3 (q : List Char) (p : Filters) : Filters :=
  if containsSub ("palindrom".data) q then { p with is_palindrome := some true }
  else p

/-- Rule 4: `longer than N` sets `min_length = N + 1`. -/
def step4 (q : List Char) (p : Filters) : Filters :=
  match findLongerThan q with
  | some n => { p with min_length := some (n + 1) }
  | none => p

/-- Rule 5: `at least N` / `>= N` / `greater than or equal to N` sets
`min_length = N`. -/
def step5 (q : List Char) (p : Filters) : Filters :=
  match findAtLeast q with
  | some n => { p with min_length := some n }
  | none => p

/-- Rule 6: `shorter than N` sets `max_length = max(0, N - 1)`. -/
def step6 (q : List Char) (p : Filters) : Filters :=
  match findShorterThan q with
  | some n => { p with max_length := some (max 0 (n - 1)) }
  | none => p

/-- Rule 7: the `letter X` regex sets `contains_character = X`. -/
def step7 (q : List Char) (p : Filters) : Filters :=
  match findContainLetter q with
  | some c => { p with contains_character := some (String.mk [c]) }
  | none => p

/-- Rule 8: the simpler `containing X` regex sets `contains_character`
only when the key is not yet present. -/
def step8 (q : List Char) (p : Filters) : Filters :=
  match findContaining q with
  | some c =>
      if p.contains_character = none then
        { p with contains_character := some (String.mk [c]) }
      else p
  | none => p

/-- Rule 9: `"first vowel" in q` forces `contains_character = "a"` and
`parsed["is_palindrome"] = parsed.get("is_palindrome", True)`. -/
def step9 (q : List Char) (p : Filters) : Filters :=
  if containsSub ("first vowel".data) q then
    { p with contains_character := some "a"
             is_palindrome := some (p.is_palindrome.getD true) }
  else p

/-- Rule 10: when `first vowel` occurs and `is_palindrome` is still
absent, `parsed["contains_character"] = parsed.get("contains_character", "a")`. -/
def step10 (q : List Char) (p : Filters) : Filters :=
  if containsSub ("first vowel".data) q && p.is_palindrome.isNone then
    { p with contains_character := some (p.contains_character.getD "a") }
  else p

/-- `q.lower().strip()`, the normalization at the top of `parse_nl_query`. -/
def nlNorm (query : String) : List Char :=
  pyStrip (query.data.map pyLower)

/-- `parse_nl_query` (lines 211–260): normalize, then apply the rules in
source order to the initially empty dict. -/
def parse_nl_query (query : String) : Filters :=
  let q := nlNorm query
  step10 q (step9 q (step8 q (step7 q (step6 q
    (step5 q (step4 q (step3 q (step2 q emptyFilters))))))))

/-- `parse_nl_query` with the rule-10 branch removed (for the dead-code
equivalence question). -/
def parse_nl_query_no10 (query : String) : Filters :=
  let q := nlNorm query
  step9 q (step8 q (step7 q (step6 q
    (step5 q (step4 q (step3 q (step2 q emptyFilters)))))))

/-! ## `filter_by_nl` (lines 262–304) -/

/-- `if not parsed`: every key is absent. -/
def filtersIsEmpty (p : Filters) : Bool :=
  p.is_palindrome.isNone && p.min_length.isNone && p.max_length.isNone &&
  p.word_count.isNone && p.contains_character.isNone

/-- The parsed-filters conflict check: both bounds present and
`min_length > max_length`. -/
def nlConflict (p : Filters) : Bool :=
  match p.min_length, p.max_length with
  | some a, some b => decide (a > b)
  | _, _ => false

/-- The parsed `contains_character` validity check: present but not
exactly one character. -/
def nlBadChar (p : Filters) : Bool :=
  match p.contains_character with
  | some s => decide (s.length ≠ 1)
  | none => false

/-- Outcome of the natural-language filter endpoint. -/
inductive NlResult where
  | badRequest400
  | unprocessable422
  | ok (rows : List StoredRow) (parsed : Filters)
deriving DecidableEq

/-- `filter_by_nl` (lines 262–304): 400 on an empty query or when
nothing parses, 422 on conflicting bounds or a bad parsed character,
otherwise the matching rows. -/
def filter_by_nl (store : Store) (query : String) : NlResult :=
  if query = "" then .badRequest400
  else
    let parsed := parse_nl_query query
    if filtersIsEmpty parsed then .badRequest400
    else if nlConflict parsed then .unprocessable422
    else if nlBadChar parsed then .unprocessable422
    else .ok (store.filter (fun r => match_filters r.properties parsed)) parsed

/-- No rule of `parse_nl_query` fires on the normalized text. -/
def noPatternMatches (query : String) : Bool :=
  let q := nlNorm query
  !(singleWordQuery q) && !(containsSub ("palindrom".data) q) &&
  (findLongerThan q).isNone && (findAtLeast q).isNone &&
  (findShorterThan q).isNone && (findContainLetter q).isNone &&
  (findContaining q).isNone && !(containsSub ("first vowel".data) q)

/-! ## Supporting lemmas -/

/-- A successful id lookup is unaffected by rows appended after a miss. -/
theorem findRow_append_of_none {store : Store} {sid : String}
    (h : findRow store sid = none) (l : Store) :
    findRow (store ++ l) sid = findRow l sid := by
  induction store with
  | nil => rfl
  | cons r rest ih =>
      unfold findRow at h ⊢
      cases hr : (r.id == sid) with
      | true => simp [List.find?_cons, hr] at h
      | false =>
          simp only [List.cons_append, List.find?_cons, hr] at h ⊢
          exact ih h


/-! ## C3: palindrome flag is a function of the normalized string -/

/-- C3: strings that agree after whitespace removal and lower-casing get
the same `is_palindrome`; the flag is exactly the comparison of the
normalized string against its reverse; a string normalizing to the empty
string is a palindrome. -/
theorem C3_palindrome_normalized :
    (∀ s t : String,
       normalize_for_palindrome s = normalize_for_palindrome t →
       is_palindrome_value s = is_palindrome_value t) ∧
    (∀ s : String,
       is_palindrome_value s =
         (normalize_for_palindrome s ==
          String.mk (normalize_for_palindrome s).data.reverse)) ∧
    (∀ s : String,
       normalize_for_palindrome s = "" → is_palindrome_value s = true) := by
  refine ⟨fun s t h => ?_, fun s => rfl, fun s h => ?_⟩
  · unfold is_palindrome_value
    rw [h]
  · unfold is_palindrome_value
    rw [h]
    rfl

/-- Witness for C3 at concrete inputs: `"A man"` and `" aMAN"` normalize
identically, so their palindrome flags agree; a whitespace-only string
normalizes to empty and counts as a palindrome. -/
theorem C3_palindrome_normalized_witness :
    (normalize_for_palindrome "A man" = normalize_for_palindrome " aMAN" ∧
     is_palindrome_value "A man" = is_palindrome_value " aMAN") ∧
    (normalize_for_palindrome " \t " = "" ∧ is_palindrome_value " \t " = true) :=
  ⟨⟨by decide, C3_palindrome_normalized.1 "A man" " aMAN" (by decide)⟩,
   ⟨by decide, C3_palindrome_normalized.2.2 " \t " (by decide)⟩⟩

/-! ## C1: the hash field and the stored id -/

/-- C1: `analyze_string` hashes the unmodified input — its `sha256_hash`
field is the lowercase hex digest of SHA-256 over the UTF-8 bytes of
`s` itself — and a successful create stores and returns a row whose id
is that same hash. -/
theorem C1_sha256_identity (s : String) (store : Store) (now : String) :
    (analyze_string s).sha256_hash = sha256_hash s ∧
    sha256_hash s =
      String.mk ((sha256Words (utf8Encode s)).map toHexWord).flatten ∧
    (findRow store (sha256_hash s) = none →
      ∃ row : StoredRow,
        create_string store s now = (store ++ [row], CreateResult.created row) ∧
        row.id = sha256_hash s ∧
        findRow (store ++ [row]) (sha256_hash s) = some row) := by
  refine ⟨rfl, rfl, fun h => ?_⟩
  have h' : findRow store ((analyze_string s).sha256_hash) = none := h
  refine ⟨⟨sha256_hash s, s, analyze_string s, now⟩, ?_, rfl, ?_⟩
  · simp only [create_string]
    rw [h']
    rfl
  · rw [findRow_append_of_none h]
    unfold findRow
    rw [List.find?_cons]
    simp

/-- Witness for C1: creating `"a"` into an empty store succeeds and the
stored id equals the analyzer's hash. -/
theorem C1_sha256_identity_witness :
    findRow ([] : Store) (sha256_hash "a") = none ∧
    (∃ row : StoredRow,
      create_string [] "a" "t0" = ([] ++ [row], CreateResult.created row) ∧
      row.id = sha256_hash "a" ∧
      findRow ([] ++ [row]) (sha256_hash "a") = some row) :=
  ⟨rfl, (C1_sha256_identity "a" [] "t0").2.2 rfl⟩

/-! ## C7: create is 201-then-409 and the second call changes nothing -/

/-- C7: with the value's id absent, the first create returns 201 and
appends exactly one row; the second create of the same value returns
409 and leaves the table exactly as the first call left it, the lookup
still returning the first call's untouched row. -/
theorem C7_create_twice (store : Store) (v t1 t2 : String)
    (h : findRow store (sha256_hash v) = none) :
    ∃ row : StoredRow,
      create_string store v t1 = (store ++ [row], CreateResult.created row) ∧
      createStatus (create_string store v t1).2 = 201 ∧
      create_string (store ++ [row]) v t2 = (store ++ [row], CreateResult.conflict) ∧
      createStatus (create_string (store ++ [row]) v t2).2 = 409 ∧
      findRow (store ++ [row]) (sha256_hash v) = some row ∧
      row = ⟨sha256_hash v, v, analyze_string v, t1⟩ := by
  have h' : findRow store ((analyze_string v).sha256_hash) = none := h
  refine ⟨⟨sha256_hash v, v, analyze_string v, t1⟩, ?_, ?_, ?_, ?_, ?_, rfl⟩
  case _ =>
    simp only [create_string]
    rw [h']
    rfl
  case _ =>
    simp only [create_string]
    rw [h']
    rfl
  case _ =>
    have hfound : findRow
        (store ++ [(⟨sha256_hash v, v, analyze_string v, t1⟩ : StoredRow)])
        ((analyze_string v).sha256_hash) =
        some ⟨sha256_hash v, v, analyze_string v, t1⟩ := by
      have := findRow_append_of_none h
        [(⟨sha256_hash v, v, analyze_string v, t1⟩ : StoredRow)]
      rw [show ((analyze_string v).sha256_hash) = sha256_hash v from rfl, this]
      unfold findRow
      simp [List.find?_cons]
    simp only [create_string]
    rw [hfound]
  case _ =>
    have hfound : findRow
        (store ++ [(⟨sha256_hash v, v, analyze_string v, t1⟩ : StoredRow)])
        ((analyze_string v).sha256_hash) =
        some ⟨sha256_hash v, v, analyze_string v, t1⟩ := by
      have := findRow_append_of_none h
        [(⟨sha256_hash v, v, analyze_string v, t1⟩ : StoredRow)]
      rw [show ((analyze_string v).sha256_hash) = sha256_hash v from rfl, this]
      unfold findRow
      simp [List.find?_cons]
    simp only [create_string]
    rw [hfound]
    rfl
  case _ =>
    rw [findRow_append_of_none h]
    unfold findRow
    simp [List.find?_cons]

/-- Witness for C7: the double create of `"ab"` against the empty store. -/
theorem C7_create_twice_witness :
    findRow ([] : Store) (sha256_hash "ab") = none ∧
    (∃ row : StoredRow,
      create_string [] "ab" "t1" = ([] ++ [row], CreateResult.created row) ∧
      createStatus (create_string [] "ab" "t1").2 = 201 ∧
      create_string ([] ++ [row]) "ab" "t2" = ([] ++ [row], CreateResult.conflict) ∧
      createStatus (create_string ([] ++ [row]) "ab" "t2").2 = 409 ∧
      findRow ([] ++ [row]) (sha256_hash "ab") = some row ∧
      row = ⟨sha256_hash "ab", "ab", analyze_string "ab", "t1"⟩) :=
  ⟨rfl, C7_create_twice [] "ab" "t1" "t2" rfl⟩

/-! ## C2: the filter matcher is the conjunction of the present filters -/

/-- C2: `match_filters` succeeds exactly when every present filter is
satisfied — absent filters constrain nothing; `is_palindrome` and
`word_count` by equality, `min_length`/`max_length` as inclusive bounds
on `length`, and `contains_character` by key membership in the frequency
map of the character as given, lower-cased, or upper-cased. -/
theorem C2_match_filters_conj (props : Props) (filters : Filters) :
    match_filters props filters = true ↔
      ((∀ b, filters.is_palindrome = some b → props.is_palindrome = b) ∧
       (∀ n, filters.min_length = some n → n ≤ props.length) ∧
       (∀ n, filters.max_length = some n → props.length ≤ n) ∧
       (∀ n, filters.word_count = some n → props.word_count = n) ∧
       (∀ ch, filters.contains_character = some ch →
          (freqHasKey props.character_frequency_map ch ||
           freqHasKey props.character_frequency_map (strLower ch) ||
           freqHasKey props.character_frequency_map (strUpper ch)) = true)) := by
  rcases filters with ⟨ip, mn, mx, wc, cc⟩
  cases ip <;> cases mn <;> cases mx <;> cases wc <;> cases cc <;>
    simp [match_filters]

/-! ## Field-preservation lemmas for the interpreter's rule steps -/

/-- Rule 2 only writes `word_count`. -/
theorem step2_min_length (q : List Char) (p : Filters) :
    (step2 q p).min_length = p.min_length := by
  unfold step2; split <;> rfl

/-- Rule 3 only writes `is_palindrome`. -/
theorem step3_min_length (q : List Char) (p : Filters) :
    (step3 q p).min_length = p.min_length := by
  unfold step3; split <;> rfl

/-- Rule 6 only writes `max_length`. -/
theorem step6_min_length (q : List Char) (p : Filters) :
    (step6 q p).min_length = p.min_length := by
  unfold step6; split <;> rfl

/-- Rule 7 only writes `contains_character`. -/
theorem step7_min_length (q : List Char) (p : Filters) :
    (step7 q p).min_length = p.min_length := by
  unfold step7; split <;> rfl

/-- Rule 8 only writes `contains_character`. -/
theorem step8_min_length (q : List Char) (p : Filters) :
    (step8 q p).min_length = p.min_length := by
  unfold step8; split <;> (try split) <;> rfl

/-- Rule 9 only writes `contains_character` and `is_palindrome`. -/
theorem step9_min_length (q : List Char) (p : Filters) :
    (step9 q p).min_length = p.min_length := by
  unfold step9; split <;> rfl

/-- Rule 10 only writes `contains_character`. -/
theorem step10_min_length (q : List Char) (p : Filters) :
    (step10 q p).min_length = p.min_length := by
  unfold step10; split <;> rfl

/-- Rule 2 does not write `is_palindrome`. -/
theorem step2_is_palindrome (q : List Char) (p : Filters) :
    (step2 q p).is_palindrome = p.is_palindrome := by
  unfold step2; split <;> rfl

/-- Rule 4 does not write `is_palindrome`. -/
theorem step4_is_palindrome (q : List Char) (p : Filters) :
    (step4 q p).is_palindrome = p.is_palindrome := by
  unfold step4; split <;> rfl

/-- Rule 5 does not write `is_palindrome`. -/
theorem step5_is_palindrome (q : List Char) (p : Filters) :
    (step5 q p).is_palindrome = p.is_palindrome := by
  unfold step5; split <;> rfl

/-- Rule 6 does not write `is_palindrome`. -/
theorem step6_is_palindrome (q : List Char) (p : Filters) :
    (step6 q p).is_palindrome = p.is_palindrome := by
  unfold step6; split <;> rfl

/-- Rule 7 does not write `is_palindrome`. -/
theorem step7_is_palindrome (q : List Char) (p : Filters) :
    (step7 q p).is_palindrome = p.is_palindrome := by
  unfold step7; split <;> rfl

/-- Rule 8 does not write `is_palindrome`. -/
theorem step8_is_palindrome (q : List Char) (p : Filters) :
    (step8 q p).is_palindrome = p.is_palindrome := by
  unfold step8; split <;> (try split) <;> rfl

/-! ## C4: `longer than N` and the later inclusive-bound rule -/

/-- C4: a `longer than N` match makes rule 4 set `min_length = N + 1`
(visible right after rule 4, and final when no inclusive-bound phrase
matches), while an `at least M` / `>= M` / `greater than or equal to M`
match makes the final `min_length` equal `M`, because rule 5 runs after
rule 4 and overwrites it. -/
theorem C4_longer_than_overwritten (q : String) (n : Nat)
    (h : findLongerThan (nlNorm q) = some n) :
    (step4 (nlNorm q) (step3 (nlNorm q) (step2 (nlNorm q) emptyFilters))).min_length
      = some (n + 1) ∧
    (findAtLeast (nlNorm q) = none →
      (parse_nl_query q).min_length = some (n + 1)) ∧
    (∀ m, findAtLeast (nlNorm q) = some m →
      (parse_nl_query q).min_length = some m) := by
  have h4 : ∀ p : Filters, (step4 (nlNorm q) p).min_length = some (n + 1) := by
    intro p; unfold step4; rw [h]
  refine ⟨h4 _, ?_, ?_⟩
  · intro hal
    have h5 : ∀ p : Filters, (step5 (nlNorm q) p).min_length = p.min_length := by
      intro p; unfold step5; rw [hal]
    simp only [parse_nl_query]
    rw [step10_min_length, step9_min_length, step8_min_length, step7_min_length,
        step6_min_length, h5, h4]
  · intro m hal
    have h5 : ∀ p : Filters, (step5 (nlNorm q) p).min_length = some m := by
      intro p; unfold step5; rw [hal]
    simp only [parse_nl_query]
    rw [step10_min_length, step9_min_length, step8_min_length, step7_min_length,
        step6_min_length, h5]

/-- Witness for C4: `"longer than 5 and at least 3"` matches both
phrases and ends with `min_length = 3`. -/
theorem C4_longer_than_overwritten_witness :
    findLongerThan (nlNorm "longer than 5 and at least 3") = some 5 ∧
    findAtLeast (nlNorm "longer than 5 and at least 3") = some 3 ∧
    (parse_nl_query "longer than 5 and at least 3").min_length = some 3 :=
  ⟨by decide, by decide,
   (C4_longer_than_overwritten "longer than 5 and at least 3" 5 (by decide)).2.2
     3 (by decide)⟩

/-! ## C5: the `first vowel` heuristic -/

/-- C5: any query whose normalized text contains `first vowel` comes out
with `contains_character = "a"` and `is_palindrome = true` (rule 3, the
only earlier writer of the flag, can only have set it to `true`); the
spec's example query parses to exactly those two filters. -/
theorem C5_first_vowel (q : String)
    (h : containsSub ("first vowel".data) (nlNorm q) = true) :
    ((parse_nl_query q).contains_character = some "a" ∧
     (parse_nl_query q).is_palindrome = some true) ∧
    parse_nl_query "palindromic strings that contain the first vowel" =
      { is_palindrome := some true, contains_character := some "a" } := by
  refine ⟨?_, by decide⟩
  have hpal : ∀ p : Filters,
      (step8 (nlNorm q) (step7 (nlNorm q) (step6 (nlNorm q) (step5 (nlNorm q)
        (step4 (nlNorm q) p))))).is_palindrome = p.is_palindrome := by
    intro p
    rw [step8_is_palindrome, step7_is_palindrome, step6_is_palindrome,
        step5_is_palindrome, step4_is_palindrome]
  have hbase : (step3 (nlNorm q) (step2 (nlNorm q) emptyFilters)).is_palindrome
      = none ∨
      (step3 (nlNorm q) (step2 (nlNorm q) emptyFilters)).is_palindrome
      = some true := by
    unfold step3
    split
    · right; rfl
    · left; rw [step2_is_palindrome]; rfl
  have h9 : ∀ p : Filters, (p.is_palindrome = none ∨ p.is_palindrome = some true) →
      (step9 (nlNorm q) p).contains_character = some "a" ∧
      (step9 (nlNorm q) p).is_palindrome = some true := by
    intro p hp
    rcases hp with hp | hp <;> simp [step9, h, hp]
  have h9' := h9 _ (by
    rw [hpal (step3 (nlNorm q) (step2 (nlNorm q) emptyFilters))]
    exact hbase)
  have h10 : ∀ p : Filters, p.is_palindrome = some true → step10 (nlNorm q) p = p := by
    intro p hp
    unfold step10
    rw [hp]
    simp
  simp only [parse_nl_query]
  rw [h10 _ h9'.2]
  exact h9'

/-- Witness for C5 at `"strings that contain the first vowel"`. -/
theorem C5_first_vowel_witness :
    containsSub ("first vowel".data)
      (nlNorm "strings that contain the first vowel") = true ∧
    ((parse_nl_query "strings that contain the first vowel").contains_character
       = some "a" ∧
     (parse_nl_query "strings that contain the first vowel").is_palindrome
       = some true) :=
  ⟨by decide,
   (C5_first_vowel "strings that contain the first vowel" (by decide)).1⟩

/-! ## C9: the rule-10 branch is dead code -/

/-- C9: removing the rule-10 branch does not change `parse_nl_query` on
any input — whenever its `first vowel` trigger fires, rule 9 has already
put `is_palindrome` into the dict, so the branch's guard is never true. -/
theorem C9_rule10_never_fires (q : String) :
    parse_nl_query q = parse_nl_query_no10 q := by
  simp only [parse_nl_query, parse_nl_query_no10]
  by_cases hfv : containsSub ("first vowel".data) (nlNorm q) = true
  · have h9 : ∀ p : Filters,
        (step9 (nlNorm q) p).is_palindrome.isNone = false := by
      intro p
      simp [step9, hfv]
    unfold step10
    rw [h9]
    simp
  · simp only [Bool.not_eq_true] at hfv
    unfold step10
    rw [hfv]
    simp

/-! ## C6: interpreter totality and the endpoint's error statuses -/

/-- C6: when no pattern matches the interpreter returns the empty
filter-set rather than failing; the endpoint answers 400 exactly when
the parsed filter-set is empty, and 422 exactly when it is non-empty but
has conflicting bounds or an invalid parsed character. -/
theorem C6_nl_error_statuses (store : Store) (q : String) :
    (filter_by_nl store q = NlResult.badRequest400 ↔
       filtersIsEmpty (parse_nl_query q) = true) ∧
    (filter_by_nl store q = NlResult.unprocessable422 ↔
       (filtersIsEmpty (parse_nl_query q) = false ∧
        (nlConflict (parse_nl_query q) = true ∨
         nlBadChar (parse_nl_query q) = true))) ∧
    (noPatternMatches q = true → parse_nl_query q = emptyFilters) := by
  have hp3 : noPatternMatches q = true → parse_nl_query q = emptyFilters := by
    intro hn
    simp only [noPatternMatches, Bool.and_eq_true, Bool.not_eq_true',
      Option.isNone_iff_eq_none] at hn
    obtain ⟨⟨⟨⟨⟨⟨⟨h2, h3⟩, h4⟩, h5⟩, h6⟩, h7⟩, h8⟩, h9⟩ := hn
    simp [parse_nl_query, step2, step3, step4, step5, step6, step7, step8,
      step9, step10, h2, h3, h4, h5, h6, h7, h8, h9]
  by_cases hq : q = ""
  · subst hq
    have hemp : filtersIsEmpty (parse_nl_query "") = true := by decide
    refine ⟨?_, ?_, hp3⟩
    · simp [filter_by_nl, hemp]
    · simp [filter_by_nl, hemp]
  · refine ⟨?_, ?_, hp3⟩
    · by_cases he : filtersIsEmpty (parse_nl_query q) = true
      · simp [filter_by_nl, hq, he]
      · simp only [Bool.not_eq_true] at he
        by_cases hc : nlConflict (parse_nl_query q) = true
        · simp [filter_by_nl, hq, he, hc]
        · simp only [Bool.not_eq_true] at hc
          by_cases hb : nlBadChar (parse_nl_query q) = true
          · simp [filter_by_nl, hq, he, hc, hb]
          · simp only [Bool.not_eq_true] at hb
            simp [filter_by_nl, hq, he, hc, hb]
    · by_cases he : filtersIsEmpty (parse_nl_query q) = true
      · simp [filter_by_nl, hq, he]
      · simp only [Bool.not_eq_true] at he
        by_cases hc : nlConflict (parse_nl_query q) = true
        · simp [filter_by_nl, hq, he, hc]
        · simp only [Bool.not_eq_true] at hc
          by_cases hb : nlBadChar (parse_nl_query q) = true
          · simp [filter_by_nl, hq, he, hc, hb]
          · simp only [Bool.not_eq_true] at hb
            simp [filter_by_nl, hq, he, hc, hb]

/-- Witness for C6: `"hello there"` triggers no rule and parses to the
empty filter-set (which the endpoint reports as 400). -/
theorem C6_nl_error_statuses_witness :
    noPatternMatches "hello there" = true ∧
    parse_nl_query "hello there" = emptyFilters ∧
    filter_by_nl [] "hello there" = NlResult.badRequest400 :=
  ⟨by decide, (C6_nl_error_statuses [] "hello there").2.2 (by decide),
   (C6_nl_error_statuses [] "hello there").1.mpr (by decide)⟩

/-! ## C10: every parsed `contains_character` is one lowercase letter -/

/-- Any property guaranteed by the per-position matcher holds for the
result of the leftmost scan. -/
theorem searchO_sound {α : Type} (p : List Char → Option α) (P : α → Prop)
    (hp : ∀ l a, p l = some a → P a) :
    ∀ l a, searchO p l = some a → P a := by
  intro l
  induction l with
  | nil => exact fun a h => hp [] a h
  | cons c cs ih =>
      intro a h
      unfold searchO at h
      cases hc : p (c :: cs) with
      | some r =>
          rw [hc] at h
          simp only [] at h
          injection h with h'
          subst h'
          exact hp _ _ hc
      | none =>
          rw [hc] at h
          exact ih a h

/-- The `letter ([a-z])` capture is a lowercase letter. -/
theorem matchLetterCap_lower {l : List Char} {c : Char}
    (h : matchLetterCap l = some c) : isAsciiLower c = true := by
  unfold matchLetterCap at h
  split at h
  · split at h
    · simp_all
    · simp at h
  · simp at h

/-- The `(?:the )?letter ([a-z])` capture is a lowercase letter. -/
theorem matchTheLetter_lower {l : List Char} {c : Char}
    (h : matchTheLetter l = some c) : isAsciiLower c = true := by
  unfold matchTheLetter at h
  split at h
  · simp at h
  · split at h
    · split at h
      · rename_i heq
        injection h with h'
        subst h'
        exact matchLetterCap_lower heq
      · exact matchLetterCap_lower h
    · exact matchLetterCap_lower h

/-- The full `contain...letter` capture is a lowercase letter. -/
theorem matchContainLetter_lower {l : List Char} {c : Char}
    (h : matchContainLetter l = some c) : isAsciiLower c = true := by
  unfold matchContainLetter at h
  split at h
  · simp at h
  · split at h
    · rename_i heq
      injection h with h'
      subst h'
      rcases Option.bind_eq_some.mp heq with ⟨r, _, hr⟩
      exact matchTheLetter_lower hr
    · split at h
      · rename_i heq
        injection h with h'
        subst h'
        rcases Option.bind_eq_some.mp heq with ⟨r, _, hr⟩
        exact matchTheLetter_lower hr
      · exact matchTheLetter_lower h

/-- The `containing ([a-z])` capture is a lowercase letter. -/
theorem matchContainingCap_lower {l : List Char} {c : Char}
    (h : matchContainingCap l = some c) : isAsciiLower c = true := by
  unfold matchContainingCap at h
  split at h
  · split at h
    · simp_all
    · simp at h
  · simp at h

/-- Rule 2 does not write `contains_character`. -/
theorem step2_contains (q : List Char) (p : Filters) :
    (step2 q p).contains_character = p.contains_character := by
  unfold step2; split <;> rfl

/-- Rule 3 does not write `contains_character`. -/
theorem step3_contains (q : List Char) (p : Filters) :
    (step3 q p).contains_character = p.contains_character := by
  unfold step3; split <;> rfl

/-- Rule 4 does not write `contains_character`. -/
theorem step4_contains (q : List Char) (p : Filters) :
    (step4 q p).contains_character = p.contains_character := by
  unfold step4; split <;> rfl

/-- Rule 5 does not write `contains_character`. -/
theorem step5_contains (q : List Char) (p : Filters) :
    (step5 q p).contains_character = p.contains_character := by
  unfold step5; split <;> rfl

/-- Rule 6 does not write `contains_character`. -/
theorem step6_contains (q : List Char) (p : Filters) :
    (step6 q p).contains_character = p.contains_character := by
  unfold step6; split <;> rfl

/-- Rule 7 keeps the parsed character a single lowercase letter. -/
theorem step7_contains_shape (q : List Char) (p : Filters)
    (hp : ∀ s, p.contains_character = some s →
       ∃ c, s = String.mk [c] ∧ isAsciiLower c = true) :
    ∀ s, (step7 q p).contains_character = some s →
       ∃ c, s = String.mk [c] ∧ isAsciiLower c = true := by
  intro s hs
  unfold step7 at hs
  split at hs
  · rename_i c heq
    injection hs with hs'
    exact ⟨c, hs'.symm,
      searchO_sound matchContainLetter (fun a => isAsciiLower a = true)
        (fun _ _ h => matchContainLetter_lower h) _ _ heq⟩
  · exact hp s hs

/-- Rule 8 keeps the parsed character a single lowercase letter. -/
theorem step8_contains_shape (q : List Char) (p : Filters)
    (hp : ∀ s, p.contains_character = some s →
       ∃ c, s = String.mk [c] ∧ isAsciiLower c = true) :
    ∀ s, (step8 q p).contains_character = some s →
       ∃ c, s = String.mk [c] ∧ isAsciiLower c = true := by
  intro s hs
  unfold step8 at hs
  split at hs
  · rename_i c heq
    split at hs
    · injection hs with hs'
      exact ⟨c, hs'.symm,
        searchO_sound matchContainingCap (fun a => isAsciiLower a = true)
          (fun _ _ h => matchContainingCap_lower h) _ _ heq⟩
    · exact hp s hs
  · exact hp s hs

/-- Rule 9 keeps the parsed character a single lowercase letter. -/
theorem step9_contains_shape (q : List Char) (p : Filters)
    (hp : ∀ s, p.contains_character = some s →
       ∃ c, s = String.mk [c] ∧ isAsciiLower c = true) :
    ∀ s, (step9 q p).contains_character = some s →
       ∃ c, s = String.mk [c] ∧ isAsciiLower c = true := by
  intro s hs
  unfold step9 at hs
  split at hs
  · injection hs with hs'
    exact ⟨'a', hs'.symm, by decide⟩
  · exact hp s hs

/-- Rule 10 keeps the parsed character a single lowercase letter. -/
theorem step10_contains_shape (q : List Char) (p : Filters)
    (hp : ∀ s, p.contains_character = some s →
       ∃ c, s = String.mk [c] ∧ isAsciiLower c = true) :
    ∀ s, (step10 q p).contains_character = some s →
       ∃ c, s = String.mk [c] ∧ isAsciiLower c = true := by
  intro s hs
  unfold step10 at hs
  split at hs
  · injection hs with hs'
    cases hc : p.contains_character with
    | none => rw [hc] at hs'; exact ⟨'a', hs'.symm, by decide⟩
    | some s0 =>
        rw [hc] at hs'
        simp only [Option.getD_some] at hs'
        exact hs' ▸ hp s0 hc
  · exact hp s hs

/-- C10: every `contains_character` the interpreter ever emits is the
one-character string of a lowercase letter, so the endpoint's 422 check
on the parsed character never fires. -/
theorem C10_parsed_char_valid (q : String) :
    (∀ s, (parse_nl_query q).contains_character = some s →
       ∃ c, s = String.mk [c] ∧ isAsciiLower c = true) ∧
    nlBadChar (parse_nl_query q) = false := by
  have main : ∀ s, (parse_nl_query q).contains_character = some s →
      ∃ c, s = String.mk [c] ∧ isAsciiLower c = true := by
    have h0 : ∀ s, (step6 (nlNorm q) (step5 (nlNorm q) (step4 (nlNorm q)
        (step3 (nlNorm q) (step2 (nlNorm q) emptyFilters))))).contains_character
          = some s →
        ∃ c, s = String.mk [c] ∧ isAsciiLower c = true := by
      intro s hs
      rw [step6_contains, step5_contains, step4_contains, step3_contains,
        step2_contains] at hs
      simp [emptyFilters] at hs
    intro s hs
    simp only [parse_nl_query] at hs
    exact step10_contains_shape _ _ (step9_contains_shape _ _
      (step8_contains_shape _ _ (step7_contains_shape _ _ h0))) s hs
  refine ⟨main, ?_⟩
  unfold nlBadChar
  cases hc : (parse_nl_query q).contains_character with
  | none => rfl
  | some s =>
      rcases main s hc with ⟨c, rfl, _⟩
      simp [String.length]

/-- Witness for C10: `"containing z"` parses to the character `"z"`,
which is indeed a single lowercase letter. -/
theorem C10_parsed_char_valid_witness :
    (parse_nl_query "containing z").contains_character = some "z" ∧
    (∃ c, "z" = String.mk [c] ∧ isAsciiLower c = true) ∧
    nlBadChar (parse_nl_query "containing z") = false :=
  ⟨by decide,
   (C10_parsed_char_valid "containing z").1 "z" (by decide),
   (C10_parsed_char_valid "containing z").2⟩

/-! ## C8: the frequency map accounts for every character exactly once -/

/-- One dict update adds exactly one to the total of the counts. -/
theorem sum_bumpFreq (m : List (Char × Nat)) (c : Char) :
    ((bumpFreq m c).map Prod.snd).sum = (m.map Prod.snd).sum + 1 := by
  induction m with
  | nil => simp [bumpFreq]
  | cons kv rest ih =>
      obtain ⟨k, v⟩ := kv
      by_cases h : k = c
      · simp [bumpFreq, h]
        omega
      · simp [bumpFreq, h, ih]
        omega

/-- Folding the dict update adds the number of processed characters. -/
theorem sum_foldl_bumpFreq (l : List Char) :
    ∀ m : List (Char × Nat),
      ((l.foldl bumpFreq m).map Prod.snd).sum = (m.map Prod.snd).sum + l.length := by
  induction l with
  | nil => intro m; simp
  | cons c cs ih =>
      intro m
      simp only [List.foldl_cons]
      rw [ih (bumpFreq m c), sum_bumpFreq]
      simp
      omega

/-- The keys after one dict update are the old keys plus the character. -/
theorem mem_keys_bumpFreq (m : List (Char × Nat)) (c a : Char) :
    a ∈ (bumpFreq m c).map Prod.fst ↔ a ∈ m.map Prod.fst ∨ a = c := by
  induction m with
  | nil => simp [bumpFreq]
  | cons kv rest ih =>
      obtain ⟨k, v⟩ := kv
      by_cases h : k = c
      · subst h
        simp [bumpFreq]
        tauto
      · simp [bumpFreq, h, ih]
        tauto

/-- One dict update leaves the keys without duplicates. -/
theorem nodup_keys_bumpFreq (m : List (Char × Nat)) (c : Char)
    (h : (m.map Prod.fst).Nodup) : ((bumpFreq m c).map Prod.fst).Nodup := by
  induction m with
  | nil => simp [bumpFreq]
  | cons kv rest ih =>
      obtain ⟨k, v⟩ := kv
      simp only [List.map_cons, List.nodup_cons] at h
      by_cases hk : k = c
      · subst hk
        rw [show bumpFreq ((k, v) :: rest) k = (k, v + 1) :: rest from by
          simp [bumpFreq]]
        simp only [List.map_cons, List.nodup_cons]
        exact ⟨h.1, h.2⟩
      · simp only [bumpFreq, if_neg hk, List.map_cons, List.nodup_cons]
        refine ⟨?_, ih h.2⟩
        intro hmem
        rw [mem_keys_bumpFreq] at hmem
        rcases hmem with hmem | hmem
        · exact h.1 hmem
        · exact hk hmem

/-- A key is present after the fold exactly when its character occurred. -/
theorem mem_keys_foldl_bumpFreq (l : List Char) :
    ∀ (m : List (Char × Nat)) (a : Char),
      a ∈ (l.foldl bumpFreq m).map Prod.fst ↔ a ∈ m.map Prod.fst ∨ a ∈ l := by
  induction l with
  | nil => simp
  | cons c cs ih =>
      intro m a
      simp only [List.foldl_cons]
      rw [ih (bumpFreq m c) a, mem_keys_bumpFreq]
      simp [List.mem_cons]
      tauto

/-- The fold keeps the keys duplicate-free. -/
theorem nodup_keys_foldl_bumpFreq (l : List Char) :
    ∀ m : List (Char × Nat), (m.map Prod.fst).Nodup →
      ((l.foldl bumpFreq m).map Prod.fst).Nodup := by
  induction l with
  | nil => exact fun m h => h
  | cons c cs ih => exact fun m h => ih _ (nodup_keys_bumpFreq m c h)

/-- C8: the counts in `character_frequency_map` sum to `length`, and the
number of its keys equals `unique_characters`. -/
theorem C8_freq_map_totals (s : String) :
    ((analyze_string s).character_frequency_map.map Prod.snd).sum =
      (analyze_string s).length ∧
    (analyze_string s).character_frequency_map.length =
      (analyze_string s).unique_characters := by
  constructor
  · show ((character_frequency_map s).map Prod.snd).sum = s.data.length
    unfold character_frequency_map
    rw [sum_foldl_bumpFreq]
    simp
  · show (character_frequency_map s).length = s.data.dedup.length
    have hlen : (character_frequency_map s).length =
        ((character_frequency_map s).map Prod.fst).length := by
      rw [List.length_map]
    rw [hlen]
    have hnd : ((character_frequency_map s).map Prod.fst).Nodup :=
      nodup_keys_foldl_bumpFreq s.data [] (by simp)
    have hfin : ((character_frequency_map s).map Prod.fst).toFinset =
        s.data.toFinset := by
      ext a
      simp only [List.mem_toFinset]
      unfold character_frequency_map
      rw [mem_keys_foldl_bumpFreq]
      simp
    calc ((character_frequency_map s).map Prod.fst).length
        = ((character_frequency_map s).map Prod.fst).toFinset.card :=
          (List.toFinset_card_of_nodup hnd).symm
      _ = s.data.toFinset.card := by rw [hfin]
      _ = s.data.dedup.length := List.card_toFinset s.data

/-! ## SHA-256 fidelity anchors (FIPS 180-4 test vectors) -/

set_option maxRecDepth 100000 in
/-- The embedded SHA-256 reproduces the standard digest of the empty
message. -/
theorem sha256_vector_empty :
    sha256_hash "" =
      "e3b0c44298fc1c149afbf4c8996fb92427ae41e4649b934ca495991b7852b855" := by
  decide

set_option maxRecDepth 100000 in
/-- The embedded SHA-256 reproduces the standard digest of `"abc"`. -/
theorem sha256_vector_abc :
    sha256_hash "abc" =
      "ba7816bf8f01cfea414140de5dae2223b00361a396177a9cb410ff61f20015ad" := by
  decide
